import Mathlib

/-!
Shallow embedding of the kvm-dmesg guest-memory client
(`qmp_client` and `libvirt_client.c`) and proofs about the claims of its
specification.  Pure parsing functions of the C source are translated to
executable Lean functions on `List Char` / `Nat`; machine 64-bit
arithmetic is `Nat` with explicit `% 2^64`; fallible code returns
`Option` / `Except` / an explicit error code, mirroring the C `-1`
convention.
-/

/-- Modulus of the C `uint64_t` arithmetic used by the address
translator and the `%lx` register parser. -/
def UINT64_MOD : Nat := 2 ^ 64

/-- Wrap-around subtraction of two `uint64_t` values (operands already
reduced below `UINT64_MOD`). -/
def sub64 (a b : Nat) : Nat := (a + (UINT64_MOD - b % UINT64_MOD)) % UINT64_MOD

/-- Address kinds accepted by `readmem` (`defs.h` tags `KVADDR` /
`PHYSADDR`). -/
inductive Memtype
  | KVADDR
  | PHYSADDR
deriving DecidableEq, Repr

/-- Address translation performed by `readmem` (libvirt_client.c lines
245-263).  The constants `__START_KERNEL_map`, `PAGE_OFFSET` and
`machdep->machspec->phys_base` come from headers outside `src/`, so they
are parameters here.  `KVADDR` at or above the direct kernel map base
translates by `addr - __START_KERNEL_map + phys_base`; below it by
`addr - PAGE_OFFSET`; `PHYSADDR` passes through unchanged.  All
arithmetic is `uint64_t`, i.e. modulo `2^64`. -/
def readmem_paddr (start_kernel_map page_offset phys_base : Nat)
    (memtype : Memtype) (addr : Nat) : Nat :=
  match memtype with
  | .KVADDR =>
      if start_kernel_map ≤ addr then
        (sub64 addr start_kernel_map + phys_base) % UINT64_MOD
      else
        sub64 addr page_offset
  | .PHYSADDR => addr

/-- Model of `file_readmem` (libvirt_client.c lines 210-230), abstracted
over the outcomes of the `fseek` and `fread` calls: `seek_ok` is whether
`fseek` returned 0, `bytesRead` is the `fread` result, `eof` is whether
`feof` is set when the read came up short. Returns the C `int` result. -/
def file_readmem (seek_ok : Bool) (bytesRead size : Nat) (eof : Bool) : Int :=
  if seek_ok = false then -1
  else if bytesRead ≠ size then
    if eof then (bytesRead : Int) else -1
  else 0

/-- Model of `file_get_registers` (libvirt_client.c lines 232-237): the
result is `(return code, idtr, cr3, cr4)` where the `cr4` component is
whatever value the caller's location held before the call, since the C
function never writes through the `cr4` pointer. -/
def file_get_registers (idtr cr3 cr4 : Nat) : Int × Nat × Nat × Nat :=
  (0, 0xffffffffff528000, 0x0000000019872000, cr4)

/-- Outcome of the size guard at the top of `qmp_readmem_part`
(qmp_client lines 289-298): either the function returns early with the
given C `int` value before any protocol exchange, or it goes on to
perform the exchange. -/
inductive PartOutcome
  | early (ret : Int)
  | exchange
deriving DecidableEq, Repr

/-- The size guard of `qmp_readmem_part`: `size` is a `size_t`, so the C
test `size <= 0` holds exactly when `size = 0`, and the early return
value is `size` itself. -/
def qmp_readmem_part_sizeCheck (size : Nat) : PartOutcome :=
  if size = 0 then PartOutcome.early (Int.ofNat size) else PartOutcome.exchange

/-- The value `qmp_readmem_part` returns on success (`return 0` at
qmp_client line 319). -/
def qmp_readmem_part_success : Int := 0

/-- Access-mode tag of `guest_client_new` (`guest_access_t`). -/
inductive GuestAccess
  | GUEST_NAME
  | GUEST_MEMORY
  | QMP_SOCKET
deriving DecidableEq, Repr

/-- The process-wide backend instance built by `guest_client_new`: the
mode tag and whether each capability slot of the table was assigned. -/
structure GuestClient where
  ty : GuestAccess
  get_registers_set : Bool
  readmem_set : Bool
deriving DecidableEq, Repr

/-- Model of `guest_client_new` (libvirt_client.c lines 265-291).
`existing` is the current value of the global `guest_client`; `initRet`
is the `int` returned by the mode's init call (`libvirt_client_init` /
`file_client_init` / `qmp_client_init`).  The C code discards that
return value: in every case both capability pointers are assigned, the
global is set, and 0 is returned. -/
def guest_client_new (existing : Option GuestClient) (initRet : Int)
    (ty : GuestAccess) : Int × Option GuestClient :=
  match existing, initRet with
  | some c, _ => (0, some c)
  | none, _ => (0, some { ty := ty, get_registers_set := true, readmem_set := true })

/-- One round of the `poll` loop inside `qmp_read` (qmp_client lines
39-63): either `poll` returned -1, or the descriptor signalled
readable and `xread` delivered a chunk of at most 1024 bytes.  The
round in which `poll` returns 0 (timeout) is modelled by the end of the
event list. -/
inductive PollEv
  | perr
  | readable (chunk : List Nat)
deriving DecidableEq, Repr

/-- Model of `qmp_read`: drains the socket round by round, appending
each chunk to the caller's buffer with no bound of any kind — the C
function has no `maxBytes` parameter.  Returns `none` for the `-1`
poll-error path, otherwise the bytes written and the final `*len`. -/
def qmp_read : List PollEv → List Nat → Option (List Nat × Nat)
  | [], acc => some (acc, acc.length)
  | PollEv.perr :: _, _ => none
  | PollEv.readable ch :: rest, acc => qmp_read rest (acc ++ ch)

/-- Lower-casing of a single byte as done by `strncasecmp` in the C
locale. -/
def toLowerC (c : Char) : Char :=
  if 'A' ≤ c ∧ c ≤ 'Z' then Char.ofNat (c.toNat + 32) else c

/-- Model of `strncasecmp(a, b, n) == 0`: compare at most `n`
characters case-insensitively, stopping early when a terminating NUL is
reached in both strings simultaneously; the end of a list stands for
the NUL terminator. -/
def strncasecmp_eq : List Char → List Char → Nat → Bool
  | _, _, 0 => true
  | a, b, n + 1 =>
    let ca := a.headD (Char.ofNat 0)
    let cb := b.headD (Char.ofNat 0)
    if toLowerC ca = toLowerC cb then
      if ca = Char.ofNat 0 then true else strncasecmp_eq a.tail b.tail n
    else false

/-- The literal greeting marker `{"QMP":` (qmp_client line 32). -/
def QMP_GREETING : List Char := ['{', '\"', 'Q', 'M', 'P', '\"', ':']

/-- The greeting verification of `qmp_establish_conn` (qmp_client lines
101-110): the 512-byte buffer is zeroed, `qmp_read` fills its first
`nread` bytes, and the connection is rejected only when
`nread == 0 && strncasecmp(buf, QMP_GREETING, 7)` — note the `&&`.
Returns `true` when the check passes (the function goes on to return
0). -/
def qmp_establish_conn_greeting (nread : Nat) (buf : List Char) : Bool :=
  !(nread == 0 && !(strncasecmp_eq buf QMP_GREETING QMP_GREETING.length))

/-- Whitespace as recognised by `sscanf` directives in the C locale. -/
def isSpaceC (c : Char) : Bool :=
  c == ' ' || c == '\t' || c == '\n' || c == '\x0d' || c == '\x0b' || c == '\x0c'

/-- Value of one hexadecimal digit, `none` for any other character. -/
def hexDigitVal (c : Char) : Option Nat :=
  if '0' ≤ c ∧ c ≤ '9' then some (c.toNat - '0'.toNat)
  else if 'a' ≤ c ∧ c ≤ 'f' then some (c.toNat - 'a'.toNat + 10)
  else if 'A' ≤ c ∧ c ≤ 'F' then some (c.toNat - 'A'.toNat + 10)
  else none

/-- Accumulate a maximal run of hexadecimal digits into `acc`, returning
the value and the unconsumed remainder. -/
def hexRun : List Char → Nat → Nat × List Char
  | [], acc => (acc, [])
  | c :: cs, acc =>
    match hexDigitVal c with
    | some d => hexRun cs (16 * acc + d)
    | none => (acc, c :: cs)

/-- Whether `needle` occurs at the very start of `hay`. -/
def startsWithC : List Char → List Char → Bool
  | _, [] => true
  | [], _ :: _ => false
  | a :: as, b :: bs => a == b && startsWithC as bs

/-- Model of `strstr(hay, needle)`: the suffix of `hay` beginning at the
first occurrence of `needle`, or `none`. -/
def strstrSuffix (needle : List Char) : List Char → Option (List Char)
  | [] => if startsWithC [] needle then some [] else none
  | c :: t =>
    if startsWithC (c :: t) needle then some (c :: t)
    else strstrSuffix needle t

/-- `strstr` followed by skipping the needle itself, as
`qmp_populate_mem` does with `start += strlen(return_start)`. -/
def strstrDrop (needle : List Char) (hay : List Char) : Option (List Char) :=
  match strstrSuffix needle hay with
  | none => none
  | some s => some (s.drop needle.length)

/-- The scan loop of `qmp_populate_reg` (qmp_client lines 190-196):
advance to the character following the first `=` at or after the found
label; if the string ends first, the position is the terminating NUL
(the empty remainder). -/
def skipToEq : List Char → List Char
  | [] => []
  | '=' :: rest => rest
  | _ :: rest => skipToEq rest

/-- Model of `sscanf(s, "%lx", &reg)` succeeding: skip whitespace, allow
an optional `0x`/`0X` prefix when a hex digit follows, then require at
least one hexadecimal digit; the parsed value is reduced modulo 2^64
(`unsigned long`).  Returns `none` when the conversion fails. -/
def sscanf_lx (s : List Char) : Option Nat :=
  let s1 := s.dropWhile isSpaceC
  let s2 := match s1 with
    | '0' :: 'x' :: c :: rest => if (hexDigitVal c).isSome then c :: rest else s1
    | '0' :: 'X' :: c :: rest => if (hexDigitVal c).isSome then c :: rest else s1
    | _ => s1
  match s2 with
  | [] => none
  | c :: _ =>
    if (hexDigitVal c).isSome then some ((hexRun s2 0).1 % UINT64_MOD) else none

/-- Model of `qmp_populate_reg` (qmp_client lines 181-203): locate the
register label with `strstr`, scan past the first `=` from there, and
parse a `%lx` value; `none` models the `-1` failure return. -/
def qmp_populate_reg (buf : List Char) (reg_name : List Char) : Option Nat :=
  match strstrSuffix reg_name buf with
  | none => none
  | some start => sscanf_lx (skipToEq start)

/-- The label `CR3` searched by `qmp_get_registers`. -/
def CR3name : List Char := ['C', 'R', '3']

/-- The label `CR4` searched by `qmp_get_registers`. -/
def CR4name : List Char := ['C', 'R', '4']

/-- The label `IDT` searched by `qmp_get_registers`. -/
def IDTname : List Char := ['I', 'D', 'T']

/-- The parsing phase of `qmp_get_registers` (qmp_client lines 224-240):
the three labels are resolved in the fixed order CR3, CR4, IDT, and the
first failing `qmp_populate_reg` aborts with an error naming that
register; on success the result is `(idtr, cr3, cr4)`. -/
def qmp_get_registers_parse (buf : List Char) : Except (List Char) (Nat × Nat × Nat) :=
  match qmp_populate_reg buf CR3name with
  | none => Except.error CR3name
  | some cr3 =>
    match qmp_populate_reg buf CR4name with
    | none => Except.error CR4name
    | some cr4 =>
      match qmp_populate_reg buf IDTname with
      | none => Except.error IDTname
      | some idtr => Except.ok (idtr, cr3, cr4)

/-- Skip of the `%*s` directive at the head of the memory-dump line
format (qmp_client line 267): skip leading whitespace, then require and
discard one non-whitespace token; `none` models the input-failure case
in which `sscanf` returns EOF and converts nothing. -/
def dropStarS (s : List Char) : Option (List Char) :=
  match s.dropWhile isSpaceC with
  | [] => none
  | c :: rest => some ((c :: rest).dropWhile (fun x => !isSpaceC x))

/-- The eight ` 0x%hhx` conversions of the memory-dump line format: for
each, skip whitespace, match the literal `0x`, then require at least one
hexadecimal digit; the maximal digit run is parsed and stored as an
`unsigned char`, i.e. modulo 256.  The first failing conversion stops
the scan, and `sscanf` reports the number of values converted so far —
here the length of the returned list. -/
def scanHexBytes : Nat → List Char → List Nat
  | 0, _ => []
  | n + 1, s =>
    match s.dropWhile isSpaceC with
    | '0' :: 'x' :: rest =>
      match rest with
      | [] => []
      | c :: _ =>
        match hexDigitVal c with
        | none => []
        | some _ => (hexRun rest 0).1 % 256 :: scanHexBytes n (hexRun rest 0).2
    | _ => []

/-- One accumulated line of `qmp_populate_mem`, tokenized by
`sscanf(line, "%*s 0x%hhx ... 0x%hhx", ...)` (qmp_client lines 267-271):
the first whitespace-separated token is skipped, then up to eight hex
byte values are converted. -/
def xpLineBytes (line : List Char) : List Nat :=
  match dropStarS line with
  | none => []
  | some rest => scanHexBytes 8 rest

/-- The literal marker `"return": "` that `qmp_populate_mem` locates
before scanning (qmp_client line 254). -/
def return_start : List Char :=
  ['\"', 'r', 'e', 't', 'u', 'r', 'n', '\"', ':', ' ', '\"']

/-- The character scan loop of `qmp_populate_mem` (qmp_client lines
263-284).  Arguments: remaining input, current index `k` from the start
of `input` (for the `start < input + len` bound), the accumulated line,
and the output bytes written so far.  The loop continues while the
current character is not `"`, `k < len`, and fewer than `size` bytes
are in the output; a backslash-`r` pair flushes the accumulated line
through the `sscanf` tokenizer (appending its values with no further
bound check, as the C `for` loop does), a backslash-`n` pair is
skipped, and any other character is appended to the line.  The fixed
128-byte capacity of the C line buffer is not modelled; the inputs the
claims evaluate stay far below it. -/
def populate_go (len size : Nat) : List Char → Nat → List Char → List Nat → List Nat
  | [], _, _, out => out
  | '\\' :: 'r' :: rest2, k, line, out =>
    if ¬ k < len ∨ ¬ out.length < size then out
    else populate_go len size rest2 (k + 2) [] (out ++ xpLineBytes line)
  | '\\' :: 'n' :: rest2, k, line, out =>
    if ¬ k < len ∨ ¬ out.length < size then out
    else populate_go len size rest2 (k + 2) line out
  | c :: rest, k, line, out =>
    if c = '\"' ∨ ¬ k < len ∨ ¬ out.length < size then out
    else populate_go len size rest (k + 1) (line ++ [c]) out

/-- Model of `qmp_populate_mem` (qmp_client lines 247-287): locate the
`"return": "` marker (`none` models the `-1` "can not found start"
return), then run the scan loop from the character after it. -/
def qmp_populate_mem (input : List Char) (len size : Nat) : Option (List Nat) :=
  match strstrDrop return_start input with
  | none => none
  | some s => some (populate_go len size s (input.length - s.length) [] [])

/-- The literal response payload of claim C2, as the character sequence
seen by `qmp_populate_mem` (backslash-`r` and backslash-`n` are
two-character escape sequences in the monitor's JSON text). -/
def c2input : List Char :=
  "\"return\": \"0x00 0x01 0x02 0x03 0x04 0x05 0x06 0x07\\r\\n0x08 0x09\\r\\n\"".toList

/-- The full-segment loop of `qmp_readmem` (qmp_client lines 333-339):
`k` iterations of the 4096-byte single-segment read, advancing the
address and the output offset by 4096 each time.  The address is a C
`uint64_t`, so `addr += step` wraps modulo 2^64; the output offset is a
pointer into the caller's buffer and is kept as a plain `Nat`.  The
result is the list of `(segmentAddress, segmentLength, outputOffset)`
exchanges actually issued, in order, and whether all of them succeeded;
the first failure ends the loop with `false` (the C `return -1`).  `f`
abstracts the single-segment reader (`qmp_readmem_part` /
`libvirt_readmem_part`), returning whether that exchange succeeded.
The C `int` loop counter is taken as unbounded. -/
def qmp_readmem_loop (f : Nat → Nat → Bool) : Nat → Nat → Nat → List (Nat × Nat × Nat) × Bool
  | _, _, 0 => ([], true)
  | addr, off, k + 1 =>
    if f addr 4096 then
      let r := qmp_readmem_loop f ((addr + 4096) % UINT64_MOD) (off + 4096) k
      ((addr, 4096, off) :: r.1, r.2)
    else ([(addr, 4096, off)], false)

/-- Model of `qmp_readmem` (qmp_client lines 326-348): `size / 4096`
full segments, then one remainder segment of `size % 4096` when that is
nonzero; a failed segment returns `-1` immediately.  The remainder
segment's address is the `uint64_t` value of `addr` after the loop,
i.e. `(addr + 4096·n) mod 2^64`.  The value is the trace of issued
exchanges plus the overall success flag. -/
def qmp_readmem (f : Nat → Nat → Bool) (addr size : Nat) : List (Nat × Nat × Nat) × Bool :=
  let n := size / 4096
  let left := size % 4096
  let r := qmp_readmem_loop f addr 0 n
  if r.2 = false then r
  else if 0 < left then
    (r.1 ++ [((addr + 4096 * n) % UINT64_MOD, left, 4096 * n)],
      f ((addr + 4096 * n) % UINT64_MOD) left)
  else r

/-- Model of `libvirt_readmem` (libvirt_client.c lines 165-187), which
is line-for-line the same chunking loop as `qmp_readmem` over its own
single-segment reader, with the same `uint64_t` address wrap. -/
def libvirt_readmem (f : Nat → Nat → Bool) (addr size : Nat) : List (Nat × Nat × Nat) × Bool :=
  let n := size / 4096
  let left := size % 4096
  let r := qmp_readmem_loop f addr 0 n
  if r.2 = false then r
  else if 0 < left then
    (r.1 ++ [((addr + 4096 * n) % UINT64_MOD, left, 4096 * n)],
      f ((addr + 4096 * n) % UINT64_MOD) left)
  else r

/-- Modelled from the spec: run the single-segment reader over a given
segment list in order, stopping at (and recording) the first failing
segment.  This is the specification's view of the chunked read, against
which `qmp_readmem` is compared. -/
def runSegs (f : Nat → Nat → Bool) : List (Nat × Nat × Nat) → List (Nat × Nat × Nat) × Bool
  | [] => ([], true)
  | s :: rest =>
    if f s.1 s.2.1 then
      let r := runSegs f rest
      (s :: r.1, r.2)
    else ([s], false)

/-- Modelled from the spec: the canonical decomposition of a read of
`size` bytes at `addr` into `size / 4096` full segments of 4096 bytes at
strictly increasing addresses `addr + 4096·i` (output offset `4096·i`),
followed by one remainder segment of `size % 4096` bytes when that is
nonzero. -/
def segments (addr size : Nat) : List (Nat × Nat × Nat) :=
  (List.range (size / 4096)).map (fun i => (addr + 4096 * i, 4096, 4096 * i)) ++
    (if size % 4096 = 0 then []
     else [(addr + 4096 * (size / 4096), size % 4096, 4096 * (size / 4096))])

/-- The claim's canonical segment list adjusted for the program's
`uint64_t` address arithmetic: segment `i` is issued at address
`(addr + 4096·i) mod 2^64` (output offset `4096·i` is a buffer offset
and does not wrap).  Coincides with `segments` exactly when the read
does not wrap past the end of the 64-bit address space. -/
def segmentsWrap (addr size : Nat) : List (Nat × Nat × Nat) :=
  (List.range (size / 4096)).map
    (fun i => ((addr + 4096 * i) % UINT64_MOD, 4096, 4096 * i)) ++
    (if size % 4096 = 0 then []
     else [((addr + 4096 * (size / 4096)) % UINT64_MOD, size % 4096,
       4096 * (size / 4096))])

/-- Recursive form of the full-segment part of `segmentsWrap`, used to
relate the loop to the canonical list; the address advances with the
`uint64_t` wrap of the loop. -/
def rangeSegs : Nat → Nat → Nat → List (Nat × Nat × Nat)
  | _, _, 0 => []
  | addr, off, k + 1 =>
    (addr, 4096, off) :: rangeSegs ((addr + 4096) % UINT64_MOD) (off + 4096) k

/-- C7: for every virtual-address read, the KVADDR branch of `readmem`
computes `addr - __START_KERNEL_map + phys_base` (mod 2^64) when the
address is at or above the direct-map base, and `addr - PAGE_OFFSET`
otherwise; a PHYSADDR read passes the address through unchanged. -/
theorem readmem_translation (map poff pbase addr : Nat)
    (ha : addr < UINT64_MOD) (hm : map < UINT64_MOD) (hp : poff < UINT64_MOD) :
    (map ≤ addr →
      readmem_paddr map poff pbase Memtype.KVADDR addr = (addr - map + pbase) % UINT64_MOD) ∧
    (addr < map → poff ≤ addr →
      readmem_paddr map poff pbase Memtype.KVADDR addr = addr - poff) ∧
    readmem_paddr map poff pbase Memtype.PHYSADDR addr = addr := by
  simp only [readmem_paddr, sub64, UINT64_MOD] at *
  refine ⟨?_, ?_, by trivial⟩
  · intro h
    rw [if_pos h]
    omega
  · intro h hpa
    rw [if_neg (by omega)]
    omega

/-- Witness for `readmem_translation` at concrete boundary-style
addresses: one address above the direct-map base, checked against the
claim's arithmetic. -/
theorem readmem_translation_witness :
    readmem_paddr (2 ^ 63) 100 5 Memtype.KVADDR (2 ^ 63 + 7) =
      (2 ^ 63 + 7 - 2 ^ 63 + 5) % UINT64_MOD ∧
    readmem_paddr (2 ^ 63) 100 5 Memtype.KVADDR 107 = 107 - 100 ∧
    readmem_paddr (2 ^ 63) 100 5 Memtype.PHYSADDR 107 = 107 := by
  have h := readmem_translation (2 ^ 63) 100 5 (2 ^ 63 + 7)
    (by norm_num [UINT64_MOD]) (by norm_num [UINT64_MOD]) (by norm_num [UINT64_MOD])
  have h2 := readmem_translation (2 ^ 63) 100 5 107
    (by norm_num [UINT64_MOD]) (by norm_num [UINT64_MOD]) (by norm_num [UINT64_MOD])
  exact ⟨h.1 (by norm_num), h2.2.1 (by norm_num) (by norm_num), h2.2.2⟩

/-- C9: a flat-file read that hits end-of-file before the requested
length returns the non-negative count of bytes actually read, never the
`-1` error value; `-1` arises only from a seek failure or a short read
without end-of-file. -/
theorem file_readmem_partial_eof (bytesRead size : Nat) (h : bytesRead < size) :
    file_readmem true bytesRead size true = (bytesRead : Int) ∧
    (bytesRead : Int) ≠ -1 ∧
    (∀ (sk : Bool) (br sz : Nat) (eo : Bool), file_readmem sk br sz eo = -1 →
      sk = false ∨ (br ≠ sz ∧ eo = false)) := by
  refine ⟨?_, by omega, ?_⟩
  · unfold file_readmem
    rw [if_neg (by simp), if_pos (by omega), if_pos rfl]
  · intro sk br sz eo he
    unfold file_readmem at he
    by_cases hsk : sk = false
    · exact Or.inl hsk
    · rw [if_neg hsk] at he
      by_cases hbr : br ≠ sz
      · rw [if_pos hbr] at he
        by_cases heo : eo
        · rw [if_pos heo] at he
          omega
        · exact Or.inr ⟨hbr, by simpa using heo⟩
      · rw [if_neg hbr] at he
        omega

/-- Witness for `file_readmem_partial_eof`: reading 3 of 10 requested
bytes at end-of-file returns 3. -/
theorem file_readmem_partial_eof_witness :
    file_readmem true 3 10 true = (3 : Int) :=
  (file_readmem_partial_eof 3 10 (by decide)).1

/-- C10: `file_get_registers` always returns success (0), sets `cr3` to
`0x0000000019872000` and `idtr` to `0xffffffffff528000`, and leaves the
caller's `cr4` value unmodified. -/
theorem file_get_registers_spec (idtr cr3 cr4 : Nat) :
    file_get_registers idtr cr3 cr4 = (0, 0xffffffffff528000, 0x0000000019872000, cr4) :=
  rfl

/-- C5 counterexample: a zero-length `qmp_readmem_part` request returns
early with value 0, which is exactly the function's success code — not a
failure result distinct from success as claimed. -/
theorem qmp_readmem_part_zero_counterexample :
    qmp_readmem_part_sizeCheck 0 = PartOutcome.early 0 ∧
    qmp_readmem_part_success = 0 :=
  ⟨rfl, rfl⟩

/-- C5 amended: a zero-length single-segment request performs no
protocol exchange, returning early — but the value returned is 0, the
same value as success, so the rejection is a warned no-op rather than a
distinguishable error; every nonzero length proceeds to the exchange. -/
theorem qmp_readmem_part_zero_noop :
    qmp_readmem_part_sizeCheck 0 = PartOutcome.early qmp_readmem_part_success ∧
    (∀ s : Nat, s ≠ 0 → qmp_readmem_part_sizeCheck s = PartOutcome.exchange) := by
  refine ⟨rfl, ?_⟩
  intro s hs
  unfold qmp_readmem_part_sizeCheck
  rw [if_neg hs]

/-- Witness for `qmp_readmem_part_zero_noop`: length 5 proceeds to the
protocol exchange. -/
theorem qmp_readmem_part_zero_noop_witness :
    qmp_readmem_part_sizeCheck 5 = PartOutcome.exchange :=
  qmp_readmem_part_zero_noop.2 5 (by decide)

/-- C6: `guest_client_new` discards the backend init call's return
value: even when construction of the chosen backend failed (init
returned -1), it still installs a backend instance into the global and
reports success (0), contradicting the claim that failure is reported
and no state is left behind.  (The capability table of the installed
instance is, however, always fully populated.) -/
theorem guest_client_new_ignores_init_failure :
    guest_client_new none (-1) GuestAccess.QMP_SOCKET =
      (0, some { ty := GuestAccess.QMP_SOCKET, get_registers_set := true,
                 readmem_set := true }) :=
  rfl

/-- C1: `qmp_read` accumulates without any bound.  A single readable
round delivering a full 1024-byte chunk is written in its entirety, so a
caller that supplied a 512-byte buffer (as `qmp_establish_conn` and
`qmp_negotiate` do) has 1024 bytes written into it — the claimed
`maxBytes` bound does not exist in the code. -/
theorem qmp_read_unbounded :
    qmp_read [PollEv.readable (List.replicate 1024 0)] [] =
      some (List.replicate 1024 0, 1024) ∧ 512 < 1024 := by
  constructor
  · show qmp_read [] ([] ++ List.replicate 1024 0) = some (List.replicate 1024 0, 1024)
    rw [List.nil_append]
    show some (List.replicate 1024 0, (List.replicate 1024 0).length) = _
    rw [List.length_replicate]
  · decide

/-- C3: because the two conditions are joined by `&&` instead of `||`,
a drained first response of three bytes `abc` — which does not begin
with `{"QMP":` — passes the greeting check, and the connect goes on to
succeed; conversely a zero-byte response always fails the check (the
zeroed buffer never matches the marker).  The code therefore accepts
non-greeting peers, contradicting the claim. -/
theorem qmp_establish_conn_greeting_bug :
    qmp_establish_conn_greeting 3 ['a', 'b', 'c'] = true ∧
    strncasecmp_eq ['a', 'b', 'c'] QMP_GREETING QMP_GREETING.length = false ∧
    qmp_establish_conn_greeting 0 (List.replicate 512 (Char.ofNat 0)) = false := by
  refine ⟨?_, ?_, ?_⟩ <;> decide

/-- C8: the labels are checked in the fixed order CR3, CR4, IDT and the
first missing one determines the reported error. In particular, on a
response where CR3 resolves but CR4 does not, the error names CR4,
independently of whether IDT is present. -/
theorem qmp_get_registers_first_missing (buf : List Char) :
    (qmp_populate_reg buf CR3name = none →
      qmp_get_registers_parse buf = Except.error CR3name) ∧
    (∀ v3, qmp_populate_reg buf CR3name = some v3 →
      qmp_populate_reg buf CR4name = none →
      qmp_get_registers_parse buf = Except.error CR4name) ∧
    (∀ v3 v4, qmp_populate_reg buf CR3name = some v3 →
      qmp_populate_reg buf CR4name = some v4 →
      qmp_populate_reg buf IDTname = none →
      qmp_get_registers_parse buf = Except.error IDTname) := by
  refine ⟨?_, ?_, ?_⟩
  · intro h
    simp [qmp_get_registers_parse, h]
  · intro v3 h3 h4
    simp [qmp_get_registers_parse, h3, h4]
  · intro v3 v4 h3 h4 hi
    simp [qmp_get_registers_parse, h3, h4, hi]

/-- Witness for `qmp_get_registers_first_missing`: on the buffer
`CR3=1f` (CR4 and IDT both absent) the reported error names CR4. -/
theorem qmp_get_registers_first_missing_witness :
    qmp_get_registers_parse ['C', 'R', '3', '=', '1', 'f'] = Except.error CR4name :=
  (qmp_get_registers_first_missing ['C', 'R', '3', '=', '1', 'f']).2.1
    0x1f (by decide) (by decide)

/-- C2 counterexample: on the claim's literal payload with output limit
10, `qmp_populate_mem` writes the eight bytes 01 02 03 04 05 06 07 09 —
not the ten bytes 00..09 the claim states.  The `%*s` directive at the
head of the line format consumes the first space-separated token of
every line (intended for the address column of a real `xp` dump), so
the first `0xHH` token of each line is swallowed, not appended. -/
theorem qmp_populate_mem_c2_counterexample :
    qmp_populate_mem c2input c2input.length 10 = some [1, 2, 3, 4, 5, 6, 7, 9] ∧
    qmp_populate_mem c2input c2input.length 10 ≠
      some [0, 1, 2, 3, 4, 5, 6, 7, 8, 9] := by
  constructor
  · decide
  · decide

/-- C2 amended: on the claim's literal payload with output limit 10,
`qmp_populate_mem` writes exactly the eight bytes 01 02 03 04 05 06 07
09, in that order: each backslash-`r`-terminated line is tokenized with
its first space-separated token skipped as an address field, and up to
eight following `0xHH` tokens are appended in order. -/
theorem qmp_populate_mem_c2_amended :
    qmp_populate_mem c2input c2input.length 10 = some [1, 2, 3, 4, 5, 6, 7, 9] := by
  decide

theorem rangeSegs_eq_map (k : Nat) : ∀ addr off, addr < UINT64_MOD →
    rangeSegs addr off k =
      (List.range k).map (fun i => ((addr + 4096 * i) % UINT64_MOD, 4096, off + 4096 * i)) := by
  induction k with
  | zero => intro addr off _; simp [rangeSegs]
  | succ k ih =>
    intro addr off ha
    rw [List.range_succ_eq_map]
    simp only [List.map_cons, List.map_map, rangeSegs]
    congr 1
    · simp [Nat.mod_eq_of_lt ha]
    · rw [ih ((addr + 4096) % UINT64_MOD) (off + 4096)
        (Nat.mod_lt _ (by norm_num [UINT64_MOD]))]
      apply List.map_congr_left
      intro i _
      simp only [Function.comp_apply, Prod.mk.injEq]
      refine ⟨?_, trivial, by omega⟩
      rw [Nat.mod_add_mod]
      congr 1
      omega

theorem runSegs_append (f : Nat → Nat → Bool) (l1 l2 : List (Nat × Nat × Nat)) :
    runSegs f (l1 ++ l2) =
      if (runSegs f l1).2 then ((runSegs f l1).1 ++ (runSegs f l2).1, (runSegs f l2).2)
      else runSegs f l1 := by
  induction l1 with
  | nil => simp [runSegs]
  | cons s t ih =>
    simp only [List.cons_append, runSegs]
    by_cases hf : f s.1 s.2.1
    · by_cases h2 : (runSegs f t).2 <;> simp [hf, ih, h2]
    · simp [hf]

theorem qmp_readmem_loop_eq (f : Nat → Nat → Bool) (k : Nat) : ∀ addr off,
    qmp_readmem_loop f addr off k = runSegs f (rangeSegs addr off k) := by
  induction k with
  | zero => intro addr off; simp [qmp_readmem_loop, rangeSegs, runSegs]
  | succ k ih =>
    intro addr off
    simp only [qmp_readmem_loop, rangeSegs, runSegs, ih]

theorem segments_pairwise (addr size : Nat) :
    (segments addr size).Pairwise (fun a b => a.1 < b.1) := by
  unfold segments
  apply List.pairwise_append.mpr
  refine ⟨?_, ?_, ?_⟩
  · rw [List.pairwise_map]
    have := List.pairwise_lt_range (size / 4096)
    apply List.Pairwise.imp _ this
    intro a b hab
    simpa using (by omega : addr + 4096 * a < addr + 4096 * b)
  · by_cases hl : size % 4096 = 0 <;> simp [hl]
  · intro a ha b hb
    rcases List.mem_map.mp ha with ⟨i, hi, rfl⟩
    have hi' := List.mem_range.mp hi
    by_cases hl : size % 4096 = 0
    · simp [hl] at hb
    · simp only [hl, if_neg, if_false, List.mem_singleton] at hb
      subst hb
      simpa using (by omega : addr + 4096 * i < addr + 4096 * (size / 4096))

/-- C4 counterexample: at `addr = 2^64 − 4096`, `size = 8192`, with an
always-succeeding single-segment reader, the `uint64_t` address wraps:
the program issues its second exchange at address 0, not at the claim's
`addr + 4096`, so the trace differs from the claim's canonical segment
list and its addresses are not strictly increasing. -/
theorem qmp_readmem_chunking_counterexample :
    qmp_readmem (fun _ _ => true) (UINT64_MOD - 4096) 8192 ≠
      runSegs (fun _ _ => true) (segments (UINT64_MOD - 4096) 8192) ∧
    qmp_readmem (fun _ _ => true) (UINT64_MOD - 4096) 8192 =
      ([(UINT64_MOD - 4096, 4096, 0), (0, 4096, 4096)], true) ∧
    ¬ (qmp_readmem (fun _ _ => true) (UINT64_MOD - 4096) 8192).1.Pairwise
        (fun a b => a.1 < b.1) := by
  have h2 : qmp_readmem (fun _ _ => true) (UINT64_MOD - 4096) 8192 =
      ([(UINT64_MOD - 4096, 4096, 0), (0, 4096, 4096)], true) := by decide
  refine ⟨by decide, h2, ?_⟩
  rw [h2]
  intro hp
  have h3 := (List.pairwise_cons.mp hp).1 (0, 4096, 4096) (by simp)
  exact absurd h3 (by decide)

/-- C4 (amended): `qmp_readmem` (and the line-identical
`libvirt_readmem`) is exactly the spec\'s chunked read over the
program\'s `uint64_t` addresses: for every 64-bit start address, the
trace of single-segment exchanges equals a first-failure-bounded run
over the canonical list of `⌊size/4096⌋` full 4096-byte segments at
addresses `(addr + 4096·i) mod 2^64` with output offset `4096·i`, then
one `size % 4096` remainder segment when nonzero — so all-success
yields exactly that list and an error on any segment stops the call
with no later segment attempted.  Whenever the read does not wrap past
the end of the address space (`addr + size ≤ 2^64`) this list is the
claim\'s `addr + 4096·i` decomposition and its addresses are strictly
increasing. -/
theorem qmp_readmem_chunking_wrap (f : Nat → Nat → Bool) (addr size : Nat)
    (ha : addr < UINT64_MOD) :
    qmp_readmem f addr size = runSegs f (segmentsWrap addr size) ∧
    libvirt_readmem f addr size = runSegs f (segmentsWrap addr size) ∧
    (addr + size ≤ UINT64_MOD →
      segmentsWrap addr size = segments addr size ∧
      (segmentsWrap addr size).Pairwise (fun a b => a.1 < b.1)) := by
  have key : qmp_readmem f addr size = runSegs f (segmentsWrap addr size) := by
    have h0 : (List.range (size / 4096)).map
        (fun i => ((addr + 4096 * i) % UINT64_MOD, (4096 : Nat), 4096 * i)) =
        rangeSegs addr 0 (size / 4096) := by
      rw [rangeSegs_eq_map (size / 4096) addr 0 ha]
      apply List.map_congr_left
      intro i _
      simp
    simp only [qmp_readmem, segmentsWrap, h0, runSegs_append, ← qmp_readmem_loop_eq]
    rcases hr : qmp_readmem_loop f addr 0 (size / 4096) with ⟨tr, ok⟩
    by_cases hok : ok = false
    · subst hok
      simp
    · have hok' : ok = true := by simpa using hok
      subst hok'
      by_cases hl : size % 4096 = 0
      · simp [hl, runSegs]
      · have hpos : 0 < size % 4096 := Nat.pos_of_ne_zero hl
        by_cases hf : f ((addr + 4096 * (size / 4096)) % UINT64_MOD) (size % 4096) <;>
          simp [hl, hpos, hf, runSegs]
  have key2 : libvirt_readmem f addr size = qmp_readmem f addr size := rfl
  refine ⟨key, by rw [key2, key], ?_⟩
  intro hw
  have hseg : segmentsWrap addr size = segments addr size := by
    unfold segmentsWrap segments
    congr 1
    · apply List.map_congr_left
      intro i hi
      have hi' := List.mem_range.mp hi
      have hlt : addr + 4096 * i < UINT64_MOD := by omega
      simp [Nat.mod_eq_of_lt hlt]
    · by_cases hl : size % 4096 = 0
      · simp [hl]
      · have hlt : addr + 4096 * (size / 4096) < UINT64_MOD := by omega
        simp [hl, Nat.mod_eq_of_lt hlt]
  rw [hseg]
  exact ⟨rfl, segments_pairwise addr size⟩

/-- Witness for `qmp_readmem_chunking_wrap`: the refinement holds at
the wrap input `addr = 2^64 − 4096, size = 8192`, and at the non-wrap
input `addr = 0, size = 8192` the wrapped segment list coincides with
the claim\'s unbounded one. -/
theorem qmp_readmem_chunking_wrap_witness :
    qmp_readmem (fun _ _ => true) (UINT64_MOD - 4096) 8192 =
      runSegs (fun _ _ => true) (segmentsWrap (UINT64_MOD - 4096) 8192) ∧
    segmentsWrap 0 8192 = segments 0 8192 :=
  ⟨(qmp_readmem_chunking_wrap (fun _ _ => true) (UINT64_MOD - 4096) 8192
      (by norm_num [UINT64_MOD])).1,
   ((qmp_readmem_chunking_wrap (fun _ _ => true) 0 8192
      (by norm_num [UINT64_MOD])).2.2 (by norm_num [UINT64_MOD])).1⟩
